import Mathlib

/-
Verification of the TicTacToe game engine (Flask + DynamoDB sample).

The development shallowly embeds the game-state engine of
`dynamodb/gameController.py`, the record wrapper of `models/game.py` and the
creation route of `application.py`.  A stored game is a `GameItem`; the
DynamoDB conditional-write primitive (spec section 6: `ConditionalUpdate`,
`ConditionalDelete`) is embedded as commit-iff-preconditions functions on the
record, since the store itself is an external collaborator whose contract the
spec fixes.  Query results are modelled as the store's response lists; the
index order (most recent first, spec sections 4.2 and 6) is a hypothesis of
the listing theorems.
-/

namespace TicTacToe

/-- One of the nine board squares, matching the attribute names used by
`getBoardState` in `gameController.py`. -/
inductive Pos where
  | topLeft | topMiddle | topRight
  | middleLeft | middleMiddle | middleRight
  | bottomLeft | bottomMiddle | bottomRight
deriving DecidableEq, Repr

/-- A stored game record: the attribute set written by `createNewGame` plus
the nine optional board-cell attributes.  All attributes are strings; a cell
or the result is `none` when the attribute is absent from the item. -/
structure GameItem where
  GameId : String
  HostId : String
  OpponentId : String
  OUser : String
  Turn : String
  StatusDate : String
  Result : Option String
  TopLeft : Option String
  TopMiddle : Option String
  TopRight : Option String
  MiddleLeft : Option String
  MiddleMiddle : Option String
  MiddleRight : Option String
  BottomLeft : Option String
  BottomMiddle : Option String
  BottomRight : Option String
deriving DecidableEq, Repr

/-- Read one board-cell attribute. -/
def getCell (item : GameItem) : Pos → Option String
  | .topLeft => item.TopLeft
  | .topMiddle => item.TopMiddle
  | .topRight => item.TopRight
  | .middleLeft => item.MiddleLeft
  | .middleMiddle => item.MiddleMiddle
  | .middleRight => item.MiddleRight
  | .bottomLeft => item.BottomLeft
  | .bottomMiddle => item.BottomMiddle
  | .bottomRight => item.BottomRight

/-- Write one board-cell attribute (the `PUT` action of the conditional
update in `updateBoardAndTurn`). -/
def setCell (item : GameItem) (position : Pos) (v : Option String) : GameItem :=
  match position with
  | .topLeft => { item with TopLeft := v }
  | .topMiddle => { item with TopMiddle := v }
  | .topRight => { item with TopRight := v }
  | .middleLeft => { item with MiddleLeft := v }
  | .middleMiddle => { item with MiddleMiddle := v }
  | .middleRight => { item with MiddleRight := v }
  | .bottomLeft => { item with BottomLeft := v }
  | .bottomMiddle => { item with BottomMiddle := v }
  | .bottomRight => { item with BottomRight := v }

/-- DynamoDB `BEGINS_WITH` comparison on string attributes, as used in the
`expected` clauses of `acceptGameInvite`, `rejectGameInvite` and
`updateBoardAndTurn`. -/
def beginsWith (p s : String) : Bool :=
  p.data.isPrefixOf s.data

/-- `createNewGame` from `gameController.py`: the unconditional item creation.
`now` stands for `str(datetime.now())`. -/
def createNewGame (gameId creator invitee now : String) : GameItem :=
  { GameId := gameId
    HostId := creator
    OpponentId := invitee
    OUser := creator
    Turn := invitee
    StatusDate := "PENDING_" ++ now
    Result := none
    TopLeft := none, TopMiddle := none, TopRight := none
    MiddleLeft := none, MiddleMiddle := none, MiddleRight := none
    BottomLeft := none, BottomMiddle := none, BottomRight := none }

/-- Python's `str.strip()`: drop whitespace from both ends. -/
def pyStrip (s : String) : String :=
  String.mk (((s.data.dropWhile Char.isWhitespace).reverse.dropWhile
    Char.isWhitespace).reverse)

/-- The `/play` route of `application.py`: strips the invitee form input and
rejects an empty or self invitee before calling `createNewGame`.  `none`
models the rejection (the `InvalidOpponent` flash). -/
def play (creator gameId inviteeForm now : String) : Option GameItem :=
  let invitee := pyStrip inviteeForm
  if invitee = "" ∨ creator = invitee then none
  else some (createNewGame gameId creator invitee now)

/-- `acceptGameInvite`: conditional update putting
`StatusDate := "IN_PROGRESS_" ++ now`, expected `StatusDate BEGINS_WITH
"PENDING_"`.  The boolean is the function's return value (`False` on
`ConditionalCheckFailedException`); the item is the stored record after the
call, unchanged when the precondition fails. -/
def acceptGameInvite (item : GameItem) (now : String) : Bool × GameItem :=
  if beginsWith "PENDING_" item.StatusDate then
    (true, { item with StatusDate := "IN_PROGRESS_" ++ now })
  else
    (false, item)

/-- `rejectGameInvite`: conditional delete, expected `StatusDate BEGINS_WITH
"PENDING_"`.  `none` in the second component means the record was deleted. -/
def rejectGameInvite (item : GameItem) : Bool × Option GameItem :=
  if beginsWith "PENDING_" item.StatusDate then
    (true, none)
  else
    (false, some item)

/-- `updateBoardAndTurn`: the single conditional update applying a move.  The
marker (`representation`) and the next turn holder are computed from the
record exactly as the code computes them from its read snapshot; the three
`expected` preconditions and the two `PUT` actions are evaluated atomically
against the stored record (the argument), per the store contract of spec
section 6. -/
def updateBoardAndTurn (item : GameItem) (position : Pos) (current_player : String) :
    Bool × GameItem :=
  let player_one := item.HostId
  let player_two := item.OpponentId
  let representation := if item.OUser = current_player then "O" else "X"
  let next_player := if current_player = player_one then player_two else player_one
  if beginsWith "IN_PROGRESS_" item.StatusDate = true ∧
      item.Turn = current_player ∧ getCell item position = none then
    (true, { setCell item position (some representation) with Turn := next_player })
  else
    (false, item)

/-- `getBoardState`: the nine cells in reading order, absent cells rendered
as a single blank. -/
def getBoardState (item : GameItem) : List String :=
  [item.TopLeft, item.TopMiddle, item.TopRight,
   item.MiddleLeft, item.MiddleMiddle, item.MiddleRight,
   item.BottomLeft, item.BottomMiddle, item.BottomRight].map (fun c => c.getD " ")

/-- The `winConditions` list of `checkForGameResult`, in its order. -/
def winConditions : List (Nat × Nat × Nat) :=
  [(0,3,6),(0,1,2),(0,4,8),(1,4,7),(2,5,8),(2,4,6),(3,4,5),(6,7,8)]

/-- The chained comparison `board[a] == board[b] == board[c] == m` of
`checkForGameResult`. -/
def lineHit (board : List String) (w : Nat × Nat × Nat) (m : String) : Bool :=
  (board.getD w.1 "" == board.getD w.2.1 "") &&
  (board.getD w.2.1 "" == board.getD w.2.2 "") &&
  (board.getD w.2.2 "" == m)

/-- The `for w in winConditions` loop of `checkForGameResult`: the first line
fully holding a marker decides, the Win test preceding the Lose test on each
line. -/
def scanLines (board : List String) (your their : String) :
    List (Nat × Nat × Nat) → Option String
  | [] => none
  | w :: ws =>
    if lineHit board w your then some "Win"
    else if lineHit board w their then some "Lose"
    else scanLines board your their ws

/-- `checkForGameResult` from `gameController.py`. -/
def checkForGameResult (board : List String) (item : GameItem) (current_player : String) :
    Option String :=
  let yourMarker := if current_player = item.OUser then "O" else "X"
  let theirMarker := if yourMarker = "O" then "X" else "O"
  match scanLines board yourMarker theirMarker winConditions with
  | some r => some r
  | none => if board.contains " " then none else some "Tie"

/-- Whether some line of `winConditions` fully holds the marker `m`. -/
def hasLine (board : List String) (m : String) : Bool :=
  winConditions.any (fun w => lineHit board w m)

/-- `changeGameToFinishedState`: returns success untouched when a result is
already present, otherwise writes `FINISHED_<now>`, turn `N/A` and the result
attribute, then saves the item. -/
def changeGameToFinishedState (item : GameItem) (result current_user now : String) :
    Bool × GameItem :=
  match item.Result with
  | some _ => (true, item)
  | none =>
    let r :=
      if result = "Tie" then "Tie"
      else if result = "Win" then current_user
      else if item.HostId = current_user then item.OpponentId else item.HostId
    (true, { item with StatusDate := "FINISHED_" ++ now, Turn := "N/A", Result := some r })

/-- Python's `split("_")`, on the character list of a string. -/
def splitOnChar (c : Char) : List Char → List (List Char)
  | [] => [[]]
  | a :: as =>
    if a = c then [] :: splitOnChar c as
    else
      match splitOnChar c as with
      | [] => [[a]]
      | h :: t => (a :: h) :: t

/-- The timestamp component of a composite `StatusDate`, as `Game.getDate`
extracts it in `models/game.py`: the piece at index 2 when the split has more
than two pieces (compound statuses such as `IN_PROGRESS`), else at index 1. -/
def dateKey (sd : String) : String :=
  let p := (splitOnChar '_' sd.data).map String.mk
  p.getD (if p.length > 2 then 2 else 1) ""

/-- The sort key `Game.__cmp__` actually compares in `models/game.py`:
always the piece at index 1 of the split - for a compound status such as
`IN_PROGRESS_<ts>` this is the literal `"PROGRESS"`, not the timestamp. -/
def cmpKey (sd : String) : String :=
  ((splitOnChar '_' sd.data).map String.mk).getD 1 ""

/-- Code-point lexicographic string comparison (Python's `<=` on strings),
on character lists. -/
def charListLe : List Char → List Char → Bool
  | [], _ => true
  | _ :: _, [] => false
  | a :: as, b :: bs =>
    if a.toNat < b.toNat then true
    else if b.toNat < a.toNat then false
    else charListLe as bs

/-- `a <= b` on strings by code points. -/
def strLe (a b : String) : Bool := charListLe a.data b.data

/-- Strict code-point comparison `a < b`. -/
def strLt (a b : String) : Bool := !strLe b a

/-- Stable insertion used to model Python's stable `list.sort(reverse=True)`
under a key: `x` is placed before the first element whose key is at most the
key of `x`, so equal keys keep their original relative order and the list
is descending by key. -/
def pyInsert (k : GameItem → String) (x : GameItem) : List GameItem → List GameItem
  | [] => [x]
  | y :: ys => if strLe (k y) (k x) then x :: y :: ys else y :: pyInsert k x ys

/-- Stable descending sort by key, modelling `games.sort(reverse=True)` with
the repository's comparator `Game.__cmp__`. -/
def pySortDesc (k : GameItem → String) (l : List GameItem) : List GameItem :=
  l.foldr (pyInsert k) []

/-- Store-level failures surfaced to the controller: the
`ResourceNotFoundException` body of a `JSONResponseError`, a
`ValidationException`, or any other transport error. -/
inductive StoreErr where
  | resourceNotFound
  | validation
  | other
deriving DecidableEq, Repr

/-- Modelled from the spec: the Store Adapter `Query` primitive (spec
section 6), missing from the sources together with the connection layer
(`connectionManager.py`).  It returns the records of the index whose hash
key equals `keyVal` and whose `StatusDate` begins with `start`, in index
order, truncated to `lim`; spec sections 4.2 and 6 fix the index order of
the listing queries as most recent first, which the listing theorems take
as a hypothesis on the index list. -/
def storeQuery (index : List GameItem) (keyOf : GameItem → String)
    (keyVal start : String) (lim : Nat) : List GameItem :=
  (index.filter (fun g => (keyOf g == keyVal) && beginsWith start g.StatusDate)).take lim

/-- `getGameInvites`: `None` input short-circuits to an empty list; otherwise
the query response is consumed up to ten items.  A `ResourceNotFound` error
is reported as `none` (the table-missing outcome), a `ValidationException`
stops the loop with the empty accumulator, any other error is re-raised. -/
def getGameInvites (user : Option String) (resp : Except StoreErr (List GameItem)) :
    Except StoreErr (Option (List GameItem)) :=
  match user with
  | none => Except.ok (some [])
  | some _ =>
    match resp with
    | Except.ok items => Except.ok (some (items.take 10))
    | Except.error StoreErr.resourceNotFound => Except.ok none
    | Except.error StoreErr.validation => Except.ok (some [])
    | Except.error e => Except.error e

/-- `getGamesWithStatus`: `None` input yields an empty list; otherwise the
host-side and opponent-side query responses are concatenated, sorted in
reverse with the repository's `Game.__cmp__` key, and truncated to ten.
There is no error handling: a store error from either query propagates. -/
def getGamesWithStatus (user : Option String)
    (hostResp oppResp : Except StoreErr (List GameItem)) :
    Except StoreErr (List GameItem) :=
  match user with
  | none => Except.ok []
  | some _ =>
    match hostResp with
    | Except.error e => Except.error e
    | Except.ok hs =>
      match oppResp with
      | Except.error e => Except.error e
      | Except.ok os =>
        Except.ok ((pySortDesc (fun g => cmpKey g.StatusDate) (hs ++ os)).take 10)

/-- The status stage encoded in the `StatusDate` composite, read off by the
same prefix tests the conditional writes use. -/
inductive Status where
  | pending
  | inProgress
  | finished
  | other
deriving DecidableEq, Repr

/-- Status stage of a record. -/
def statusOf (item : GameItem) : Status :=
  if beginsWith "PENDING_" item.StatusDate then Status.pending
  else if beginsWith "IN_PROGRESS_" item.StatusDate then Status.inProgress
  else if beginsWith "FINISHED_" item.StatusDate then Status.finished
  else Status.other

/-- Numeric stage used to state that transitions never move backwards. -/
def rank : Status → Nat
  | Status.pending => 0
  | Status.inProgress => 1
  | Status.finished => 2
  | Status.other => 0

/-- Records reachable from creation satisfy: a finished record carries a
result (only `changeGameToFinishedState` writes the `FINISHED_` stage, and
it always sets the result). -/
def Inv (item : GameItem) : Prop :=
  statusOf item = Status.finished → item.Result ≠ none

/-- One engine operation on an existing record (creation is the
initializer). -/
inductive Op where
  | accept (now : String)
  | reject
  | move (position : Pos) (user : String)
  | finalize (result user now : String)

/-- Apply one operation; `none` means the record was deleted. -/
def step (item : GameItem) : Op → Option GameItem
  | Op.accept now => some (acceptGameInvite item now).2
  | Op.reject => (rejectGameInvite item).2
  | Op.move p u => some (updateBoardAndTurn item p u).2
  | Op.finalize r u now => some (changeGameToFinishedState item r u now).2

/-- Apply a sequence of operations; operations on a deleted record are
rejected by the store and change nothing. -/
def steps : Option GameItem → List Op → Option GameItem
  | st, [] => st
  | some it, op :: ops => steps (step it op) ops
  | none, _ :: _ => none

lemma beginsWith_iff {p s : String} : beginsWith p s = true ↔ p.data <+: s.data := by
  simp [beginsWith]

lemma beginsWith_append_self (p s : String) : beginsWith p (p ++ s) = true := by
  simp [beginsWith, String.data_append]

lemma beginsWith_append_ne {p q : String} (h1 : ¬ p.data <+: q.data)
    (h2 : ¬ q.data <+: p.data) (s : String) : beginsWith p (q ++ s) = false := by
  rw [Bool.eq_false_iff]
  intro hc
  have hp : p.data <+: q.data ++ s.data := by
    simpa [beginsWith, String.data_append] using hc
  have hq : q.data <+: q.data ++ s.data := List.prefix_append _ _
  rcases List.prefix_or_prefix_of_prefix hp hq with h | h
  · exact h1 h
  · exact h2 h

lemma pending_not_begins_inProgress (s : String) :
    beginsWith "PENDING_" ("IN_PROGRESS_" ++ s) = false :=
  beginsWith_append_ne (by decide) (by decide) s

lemma pending_not_begins_finished (s : String) :
    beginsWith "PENDING_" ("FINISHED_" ++ s) = false :=
  beginsWith_append_ne (by decide) (by decide) s

lemma inProgress_not_begins_finished (s : String) :
    beginsWith "IN_PROGRESS_" ("FINISHED_" ++ s) = false :=
  beginsWith_append_ne (by decide) (by decide) s

lemma statusOf_of_pending {item : GameItem} {now : String}
    (h : item.StatusDate = "PENDING_" ++ now) : statusOf item = Status.pending := by
  simp [statusOf, h, beginsWith_append_self]

lemma statusOf_of_inProgress {item : GameItem} {now : String}
    (h : item.StatusDate = "IN_PROGRESS_" ++ now) : statusOf item = Status.inProgress := by
  simp [statusOf, h, beginsWith_append_self, pending_not_begins_inProgress]

lemma statusOf_of_finished {item : GameItem} {now : String}
    (h : item.StatusDate = "FINISHED_" ++ now) : statusOf item = Status.finished := by
  simp [statusOf, h, beginsWith_append_self, pending_not_begins_finished,
    inProgress_not_begins_finished]

lemma statusOf_finished_tests {item : GameItem} (h : statusOf item = Status.finished) :
    beginsWith "PENDING_" item.StatusDate = false ∧
    beginsWith "IN_PROGRESS_" item.StatusDate = false := by
  by_cases h1 : beginsWith "PENDING_" item.StatusDate = true
  · simp [statusOf, h1] at h
  · by_cases h2 : beginsWith "IN_PROGRESS_" item.StatusDate = true
    · simp [statusOf, h1, h2] at h
    · exact ⟨Bool.eq_false_iff.mpr (by simpa using h1),
        Bool.eq_false_iff.mpr (by simpa using h2)⟩

lemma statusOf_pending_test {item : GameItem} (h : statusOf item = Status.pending) :
    beginsWith "PENDING_" item.StatusDate = true := by
  by_cases h1 : beginsWith "PENDING_" item.StatusDate = true
  · exact h1
  · by_cases h2 : beginsWith "IN_PROGRESS_" item.StatusDate = true <;>
      by_cases h3 : beginsWith "FINISHED_" item.StatusDate = true <;>
      simp [statusOf, h1, h2, h3] at h

lemma setCell_StatusDate (item : GameItem) (p : Pos) (v : Option String) :
    (setCell item p v).StatusDate = item.StatusDate := by
  cases p <;> rfl

lemma setCell_Result (item : GameItem) (p : Pos) (v : Option String) :
    (setCell item p v).Result = item.Result := by
  cases p <;> rfl

lemma updateBoardAndTurn_eq (item : GameItem) (position : Pos) (u : String) :
    updateBoardAndTurn item position u =
      if beginsWith "IN_PROGRESS_" item.StatusDate = true ∧ item.Turn = u ∧
          getCell item position = none then
        (true, { setCell item position (some (if item.OUser = u then "O" else "X")) with
                  Turn := if u = item.HostId then item.OpponentId else item.HostId })
      else (false, item) := rfl

/- Concrete records used by witnesses and counterexamples. -/

/-- A freshly created pending game hosted by alice against bob. -/
def pendingItem : GameItem :=
  createNewGame "g1" "alice" "bob" "2024-01-01 10:00:00.000000"

/-- The same game once bob has accepted: in progress, bob to move. -/
def progressItem : GameItem :=
  (acceptGameInvite pendingItem "2024-01-01 11:00:00.000000").2

/-- C1: `ApplyMove` succeeds if and only if the three store preconditions
hold on the record at update time (status begins with `IN_PROGRESS_`, turn
equals the acting user, target cell unset); on success it writes exactly the
acting user's marker (`O` when the acting user is `oUser`, else `X`) into the
cell and hands the turn to the other participant; on any precondition
failure the call reports the failure and the record is unchanged. -/
theorem applyMove_conditional_update (item : GameItem) (position : Pos) (u : String) :
    ((updateBoardAndTurn item position u).1 = true ↔
      (beginsWith "IN_PROGRESS_" item.StatusDate = true ∧ item.Turn = u ∧
        getCell item position = none)) ∧
    (beginsWith "IN_PROGRESS_" item.StatusDate = true → item.Turn = u →
      getCell item position = none →
      updateBoardAndTurn item position u =
        (true, { setCell item position (some (if item.OUser = u then "O" else "X")) with
                  Turn := if u = item.HostId then item.OpponentId else item.HostId })) ∧
    ((updateBoardAndTurn item position u).1 = false →
      (updateBoardAndTurn item position u).2 = item) ∧
    (u = item.HostId →
      (if u = item.HostId then item.OpponentId else item.HostId) = item.OpponentId) ∧
    (u = item.OpponentId → u ≠ item.HostId →
      (if u = item.HostId then item.OpponentId else item.HostId) = item.HostId) := by
  by_cases hc : beginsWith "IN_PROGRESS_" item.StatusDate = true ∧ item.Turn = u ∧
      getCell item position = none
  · refine ⟨?_, ?_, ?_, ?_, ?_⟩
    · simp [updateBoardAndTurn_eq, hc]
    · intro h1 h2 h3
      simp [updateBoardAndTurn_eq, hc]
    · simp [updateBoardAndTurn_eq, hc]
    · intro h; simp [h]
    · intro _ h2; simp [h2]
  · refine ⟨?_, ?_, ?_, ?_, ?_⟩
    · simp [updateBoardAndTurn_eq, hc]
    · intro h1 h2 h3; exact absurd ⟨h1, h2, h3⟩ hc
    · simp [updateBoardAndTurn_eq, hc]
    · intro h; simp [h]
    · intro _ h2; simp [h2]

/-- Witness for C1: on the concrete in-progress game, bob's move on the free
top-left square succeeds, marks it `X` (bob is not `oUser`), and hands the
turn to alice. -/
theorem applyMove_conditional_update_witness :
    (updateBoardAndTurn progressItem Pos.topLeft "bob").1 = true ∧
    (updateBoardAndTurn progressItem Pos.topLeft "bob").2.TopLeft = some "X" ∧
    (updateBoardAndTurn progressItem Pos.topLeft "bob").2.Turn = "alice" := by
  have h := (applyMove_conditional_update progressItem Pos.topLeft "bob").2.1
    (by decide) (by decide) (by decide)
  refine ⟨by rw [h], by rw [h]; decide, by rw [h]; decide⟩

/-- C3: `FinalizeGame` is idempotent: with a result already set it succeeds
without mutating; otherwise it writes `FINISHED_<now>`, turn `N/A` and the
result (`Tie` on a tie, the deciding user on a win, the other participant on
a loss), and a repeated call is a success no-op. -/
theorem finalizeGame_idempotent (item : GameItem) (result user now nxt : String) :
    (item.Result ≠ none → changeGameToFinishedState item result user now = (true, item)) ∧
    (item.Result = none →
      changeGameToFinishedState item result user now =
        (true, { item with
                  StatusDate := "FINISHED_" ++ now, Turn := "N/A",
                  Result := some (if result = "Tie" then "Tie"
                    else if result = "Win" then user
                    else if item.HostId = user then item.OpponentId else item.HostId) })) ∧
    (changeGameToFinishedState (changeGameToFinishedState item result user now).2
        result user nxt =
      (true, (changeGameToFinishedState item result user now).2)) ∧
    (changeGameToFinishedState item result user now).1 = true := by
  cases h : item.Result with
  | none => simp [changeGameToFinishedState, h]
  | some r => simp [changeGameToFinishedState, h]

/-- Witness for C3: finalizing the finished record a second time is a
success no-op on a concrete game. -/
theorem finalizeGame_idempotent_witness :
    changeGameToFinishedState
      (changeGameToFinishedState progressItem "Win" "bob" "2024-01-01 12:00:00.000000").2
      "Win" "bob" "2024-01-01 13:00:00.000000" =
    (true, (changeGameToFinishedState progressItem "Win" "bob"
      "2024-01-01 12:00:00.000000").2) :=
  (finalizeGame_idempotent progressItem "Win" "bob" "2024-01-01 12:00:00.000000"
    "2024-01-01 13:00:00.000000").2.2.1

/-- C4: `AcceptInvite` rewrites `statusDate` to `IN_PROGRESS_<now>` exactly
when the current status begins with `PENDING_`, failing (stale invite)
otherwise and leaving the record unchanged; after a success, a second accept
and a reject both fail, and `RejectInvite` deletes the record exactly under
the same `PENDING_` precondition. -/
theorem acceptInvite_stale (item : GameItem) (now nxt : String) :
    ((acceptGameInvite item now).1 = true ↔
      beginsWith "PENDING_" item.StatusDate = true) ∧
    (beginsWith "PENDING_" item.StatusDate = true →
      acceptGameInvite item now = (true, { item with StatusDate := "IN_PROGRESS_" ++ now })) ∧
    ((acceptGameInvite item now).1 = false → (acceptGameInvite item now).2 = item) ∧
    ((acceptGameInvite item now).1 = true →
      acceptGameInvite (acceptGameInvite item now).2 nxt =
        (false, (acceptGameInvite item now).2) ∧
      rejectGameInvite (acceptGameInvite item now).2 =
        (false, some (acceptGameInvite item now).2)) ∧
    ((rejectGameInvite item).2 = none ↔ beginsWith "PENDING_" item.StatusDate = true) ∧
    ((rejectGameInvite item).1 = false → (rejectGameInvite item).2 = some item) := by
  by_cases h : beginsWith "PENDING_" item.StatusDate = true
  · simp [acceptGameInvite, rejectGameInvite, h, pending_not_begins_inProgress]
  · simp only [Bool.not_eq_true] at h
    simp [acceptGameInvite, rejectGameInvite, h]

/-- Witness for C4: accepting the pending alice-bob game succeeds, and the
second accept on its identifier fails. -/
theorem acceptInvite_stale_witness :
    acceptGameInvite pendingItem "2024-01-01 11:00:00.000000" =
      (true, { pendingItem with
                StatusDate := "IN_PROGRESS_" ++ "2024-01-01 11:00:00.000000" }) ∧
    acceptGameInvite progressItem "2024-01-01 11:30:00.000000" =
      (false, progressItem) := by
  have h1 := (acceptInvite_stale pendingItem "2024-01-01 11:00:00.000000"
    "2024-01-01 11:30:00.000000").2.1 (by decide)
  have h2 := (acceptInvite_stale pendingItem "2024-01-01 11:00:00.000000"
    "2024-01-01 11:30:00.000000").2.2.2.1 (by decide)
  exact ⟨h1, h2.1⟩

/-- C6: game creation rejects an empty or self opponent and otherwise writes
exactly one record with status `PENDING_<now>`, `oUser` the host, turn the
opponent, no cells and no result. -/
theorem createGame_validation (creator gameId inviteeForm now : String) :
    (play creator gameId inviteeForm now = none ↔
      pyStrip inviteeForm = "" ∨ creator = pyStrip inviteeForm) ∧
    (pyStrip inviteeForm ≠ "" → creator ≠ pyStrip inviteeForm →
      play creator gameId inviteeForm now =
        some { GameId := gameId, HostId := creator, OpponentId := pyStrip inviteeForm,
               OUser := creator, Turn := pyStrip inviteeForm,
               StatusDate := "PENDING_" ++ now, Result := none,
               TopLeft := none, TopMiddle := none, TopRight := none,
               MiddleLeft := none, MiddleMiddle := none, MiddleRight := none,
               BottomLeft := none, BottomMiddle := none, BottomRight := none }) := by
  by_cases h : pyStrip inviteeForm = "" ∨ creator = pyStrip inviteeForm
  · refine ⟨by simp [play, h], ?_⟩
    intro h1 h2
    rcases h with h | h
    · exact absurd h h1
    · exact absurd h h2
  · refine ⟨by simp [play, h], ?_⟩
    intro _ _
    simp [play, h, createNewGame]

/-- Witness for C6: creating the alice-bob game with a padded form input
produces exactly the pending record. -/
theorem createGame_validation_witness :
    play "alice" "g1" " bob " "2024-01-01 10:00:00.000000" = some pendingItem := by
  have h := (createGame_validation "alice" "g1" " bob "
    "2024-01-01 10:00:00.000000").2 (by decide) (by decide)
  rw [h]
  decide

/-- C10: on a record whose turn is one of the two participants, a move by a
non-participant computes marker `X` and would hand the turn to the host, but
the store turn precondition cannot hold, so the update fails and the record
is unchanged. -/
theorem nonParticipant_move_fails (item : GameItem) (position : Pos) (u : String)
    (hTurn : item.Turn = item.HostId ∨ item.Turn = item.OpponentId)
    (hO : item.OUser = item.HostId)
    (h1 : u ≠ item.HostId) (h2 : u ≠ item.OpponentId) :
    (if item.OUser = u then "O" else "X") = "X" ∧
    (if u = item.HostId then item.OpponentId else item.HostId) = item.HostId ∧
    updateBoardAndTurn item position u = (false, item) := by
  have hne : ¬ item.Turn = u := by
    rcases hTurn with h | h
    · intro hTu; exact h1 ((h.symm.trans hTu).symm ▸ rfl)
    · intro hTu; exact h2 ((h.symm.trans hTu).symm ▸ rfl)
  refine ⟨?_, ?_, ?_⟩
  · rw [if_neg]
    rw [hO]
    intro hh; exact h1 hh.symm
  · rw [if_neg h1]
  · rw [updateBoardAndTurn_eq, if_neg]
    intro hh
    exact hne hh.2.1

/-- Witness for C10: eve's attempted move on the in-progress alice-bob game
fails and changes nothing. -/
theorem nonParticipant_move_fails_witness :
    updateBoardAndTurn progressItem Pos.topLeft "eve" = (false, progressItem) :=
  (nonParticipant_move_fails progressItem Pos.topLeft "eve"
    (Or.inr (by decide)) (by decide) (by decide) (by decide)).2.2

/-- The local `yourMarker` of `checkForGameResult`. -/
def yourMarkerOf (item : GameItem) (current_player : String) : String :=
  if current_player = item.OUser then "O" else "X"

/-- The local `theirMarker` of `checkForGameResult`. -/
def theirMarkerOf (item : GameItem) (current_player : String) : String :=
  if yourMarkerOf item current_player = "O" then "X" else "O"

lemma checkForGameResult_eq (board : List String) (item : GameItem) (cp : String) :
    checkForGameResult board item cp =
      match scanLines board (yourMarkerOf item cp) (theirMarkerOf item cp) winConditions with
      | some r => some r
      | none => if board.contains " " then none else some "Tie" := rfl

lemma scanLines_eq_none {b : List String} {your their : String} :
    ∀ {ws : List (Nat × Nat × Nat)},
      ws.any (fun w => lineHit b w your) = false →
      ws.any (fun w => lineHit b w their) = false →
      scanLines b your their ws = none
  | [], _, _ => rfl
  | w :: ws, h1, h2 => by
    simp only [List.any_cons, Bool.or_eq_false_iff] at h1 h2
    simp only [scanLines, h1.1, h2.1, if_false]
    exact scanLines_eq_none h1.2 h2.2

lemma scanLines_eq_win {b : List String} {your their : String} :
    ∀ {ws : List (Nat × Nat × Nat)},
      ws.any (fun w => lineHit b w your) = true →
      ws.any (fun w => lineHit b w their) = false →
      scanLines b your their ws = some "Win"
  | w :: ws, h1, h2 => by
    simp only [List.any_cons, Bool.or_eq_false_iff] at h2
    cases hx : lineHit b w your with
    | true => simp [scanLines, hx]
    | false =>
      simp only [List.any_cons, hx, Bool.false_or] at h1
      simp only [scanLines, hx, h2.1, if_false]
      exact scanLines_eq_win h1 h2.2

lemma scanLines_eq_lose {b : List String} {your their : String} :
    ∀ {ws : List (Nat × Nat × Nat)},
      ws.any (fun w => lineHit b w their) = true →
      ws.any (fun w => lineHit b w your) = false →
      scanLines b your their ws = some "Lose"
  | w :: ws, h1, h2 => by
    simp only [List.any_cons, Bool.or_eq_false_iff] at h2
    cases hx : lineHit b w their with
    | true => simp [scanLines, hx, h2.1]
    | false =>
      simp only [List.any_cons, hx, Bool.false_or] at h1
      simp only [scanLines, h2.1, hx, if_false]
      exact scanLines_eq_lose h1 h2.2

lemma scanLines_of_any {b : List String} {your their : String} :
    ∀ {ws : List (Nat × Nat × Nat)},
      (ws.any (fun w => lineHit b w your) = true ∨
       ws.any (fun w => lineHit b w their) = true) →
      scanLines b your their ws = some "Win" ∨ scanLines b your their ws = some "Lose"
  | [], h => by simp at h
  | w :: ws, h => by
    cases hx : lineHit b w your with
    | true => exact Or.inl (by simp [scanLines, hx])
    | false =>
      cases hy : lineHit b w their with
      | true => exact Or.inr (by simp [scanLines, hx, hy])
      | false =>
        simp only [scanLines, hx, hy, if_false]
        apply scanLines_of_any
        simpa [List.any_cons, hx, hy] using h

lemma scanLines_vals {b : List String} {your their : String} :
    ∀ (ws : List (Nat × Nat × Nat)),
      scanLines b your their ws = none ∨ scanLines b your their ws = some "Win" ∨
      scanLines b your their ws = some "Lose"
  | [] => Or.inl rfl
  | w :: ws => by
    cases hx : lineHit b w your with
    | true => exact Or.inr (Or.inl (by simp [scanLines, hx]))
    | false =>
      cases hy : lineHit b w their with
      | true => exact Or.inr (Or.inr (by simp [scanLines, hx, hy]))
      | false =>
        simp only [scanLines, hx, hy, if_false]
        exact scanLines_vals ws

/-- The board of spec section 8 with an extra completed column: the left
column is all `X`, the right column all `O`, three cells blank. -/
def twoLineBoard : List String := ["X", " ", "O", "X", " ", "O", "X", " ", "O"]

/-- C2 counterexample: on `twoLineBoard` the O-playing viewer (the host,
`oUser`) has a fully-O line, yet `checkForGameResult` returns `Lose`
because the scan meets the opponent's completed left column first - the
claim requires `Win` whenever some line fully holds the acting user's
marker. -/
theorem detectResult_priority_counterexample :
    yourMarkerOf pendingItem "alice" = "O" ∧
    hasLine twoLineBoard "O" = true ∧
    checkForGameResult twoLineBoard pendingItem "alice" = some "Lose" := by decide

/-- C2 amended: `DetectResult` returns the verdict of the first completed
line in the fixed scan order - hence `Win` whenever the acting user has a
completed line and the opponent has none, `Lose` in the symmetric case, one
of `Win`/`Lose` when both players have completed lines, `Tie` on a full
board without a completed line, `None` on a non-full board without one -
and always exactly one of the four outcomes. -/
theorem detectResult_cases (board : List String) (item : GameItem) (cp : String) :
    (hasLine board (yourMarkerOf item cp) = true →
      hasLine board (theirMarkerOf item cp) = false →
      checkForGameResult board item cp = some "Win") ∧
    (hasLine board (theirMarkerOf item cp) = true →
      hasLine board (yourMarkerOf item cp) = false →
      checkForGameResult board item cp = some "Lose") ∧
    (hasLine board (yourMarkerOf item cp) = true →
      hasLine board (theirMarkerOf item cp) = true →
      checkForGameResult board item cp = some "Win" ∨
        checkForGameResult board item cp = some "Lose") ∧
    (hasLine board (yourMarkerOf item cp) = false →
      hasLine board (theirMarkerOf item cp) = false →
      checkForGameResult board item cp =
        (if board.contains " " then none else some "Tie")) ∧
    (checkForGameResult board item cp = some "Win" ∨
      checkForGameResult board item cp = some "Lose" ∨
      checkForGameResult board item cp = some "Tie" ∨
      checkForGameResult board item cp = none) := by
  refine ⟨?_, ?_, ?_, ?_, ?_⟩
  · intro h1 h2
    rw [checkForGameResult_eq, scanLines_eq_win h1 h2]
  · intro h1 h2
    rw [checkForGameResult_eq, scanLines_eq_lose h1 h2]
  · intro h1 _
    rcases scanLines_of_any (Or.inl h1) with h | h <;>
      [exact Or.inl (by rw [checkForGameResult_eq, h]);
       exact Or.inr (by rw [checkForGameResult_eq, h])]
  · intro h1 h2
    rw [checkForGameResult_eq, scanLines_eq_none h1 h2]
  · rcases @scanLines_vals board (yourMarkerOf item cp)
        (theirMarkerOf item cp) winConditions with h | h | h
    · rw [checkForGameResult_eq, h]
      by_cases hb : board.contains " " = true
      · rw [if_pos hb]
        exact Or.inr (Or.inr (Or.inr rfl))
      · rw [if_neg hb]
        exact Or.inr (Or.inr (Or.inl rfl))
    · exact Or.inl (by rw [checkForGameResult_eq, h])
    · exact Or.inr (Or.inl (by rw [checkForGameResult_eq, h]))

/-- The `Win`/`Lose` scenario board of spec section 8. -/
def xRowBoard : List String := ["X", "X", "X", " ", "O", " ", " ", " ", "O"]

/-- Witness for C2: on the spec's scenario board the X-playing viewer (bob)
gets `Win`. -/
theorem detectResult_cases_witness :
    checkForGameResult xRowBoard pendingItem "bob" = some "Win" :=
  (detectResult_cases xRowBoard pendingItem "bob").1 (by decide) (by decide)

lemma rank_le_two (s : Status) : rank s ≤ 2 := by
  cases s <;> simp [rank]

lemma step_finished_frozen {item : GameItem} (hInv : Inv item)
    (hf : statusOf item = Status.finished) (op : Op) : step item op = some item := by
  obtain ⟨hP, hI⟩ := statusOf_finished_tests hf
  cases op with
  | accept now => simp [step, acceptGameInvite, hP]
  | reject => simp [step, rejectGameInvite, hP]
  | move p u =>
    rw [step, updateBoardAndTurn_eq, if_neg]
    intro hh
    rw [hI] at hh
    exact Bool.false_ne_true hh.1
  | finalize r u now =>
    have hres := hInv hf
    cases hr : item.Result with
    | none => exact absurd hr hres
    | some v => simp [step, changeGameToFinishedState, hr]

lemma step_props {item : GameItem} (hInv : Inv item) (op : Op) {it' : GameItem}
    (hstep : step item op = some it') :
    rank (statusOf item) ≤ rank (statusOf it') ∧ Inv it' ∧
    (statusOf item = Status.finished → it' = item) := by
  by_cases hf : statusOf item = Status.finished
  · rw [step_finished_frozen hInv hf op] at hstep
    cases hstep
    exact ⟨le_refl _, hInv, fun _ => rfl⟩
  · have hnotfin : ∀ {x : GameItem}, statusOf x ≠ Status.finished → Inv x := by
      intro x hx h
      exact absurd h hx
    cases op with
    | accept now =>
      by_cases hP : beginsWith "PENDING_" item.StatusDate = true
      · have he : it' = { item with StatusDate := "IN_PROGRESS_" ++ now } := by
          rw [step] at hstep
          simp [acceptGameInvite, hP] at hstep
          exact hstep.symm
        subst he
        have hs : statusOf item = Status.pending := by simp [statusOf, hP]
        have hs' : statusOf { item with StatusDate := "IN_PROGRESS_" ++ now } =
            Status.inProgress := statusOf_of_inProgress rfl
        refine ⟨by rw [hs, hs']; simp [rank], hnotfin (by rw [hs']; intro h; cases h),
          fun h => absurd h hf⟩
      · have he : it' = item := by
          rw [step] at hstep
          simp [acceptGameInvite, hP] at hstep
          exact hstep.symm
        subst he
        exact ⟨le_refl _, hInv, fun _ => rfl⟩
    | reject =>
      rw [step, rejectGameInvite] at hstep
      by_cases hP : beginsWith "PENDING_" item.StatusDate = true
      · rw [if_pos hP] at hstep
        cases hstep
      · rw [if_neg hP] at hstep
        simp at hstep
        subst hstep
        exact ⟨le_refl _, hInv, fun _ => rfl⟩
    | move p u =>
      rw [step, updateBoardAndTurn_eq] at hstep
      by_cases hc : beginsWith "IN_PROGRESS_" item.StatusDate = true ∧ item.Turn = u ∧
          getCell item p = none
      · rw [if_pos hc] at hstep
        simp at hstep
        have hsd : it'.StatusDate = item.StatusDate := by
          rw [← hstep]
          exact setCell_StatusDate item p _
        have hres : it'.Result = item.Result := by
          rw [← hstep]
          exact setCell_Result item p _
        have hstat : statusOf it' = statusOf item := by simp [statusOf, hsd]
        refine ⟨by rw [hstat], ?_, fun h => absurd h hf⟩
        intro h
        rw [hstat] at h
        rw [hres]
        exact hInv h
      · rw [if_neg hc] at hstep
        simp at hstep
        subst hstep
        exact ⟨le_refl _, hInv, fun _ => rfl⟩
    | finalize r u now =>
      rw [step, changeGameToFinishedState] at hstep
      cases hr : item.Result with
      | some v =>
        rw [hr] at hstep
        simp at hstep
        subst hstep
        exact ⟨le_refl _, hInv, fun _ => rfl⟩
      | none =>
        rw [hr] at hstep
        simp at hstep
        have hs' : statusOf it' = Status.finished := by
          rw [← hstep]
          exact statusOf_of_finished rfl
        refine ⟨by rw [hs']; exact rank_le_two _, ?_, fun h => absurd h hf⟩
        intro _
        rw [← hstep]
        simp

lemma steps_finished_frozen {item : GameItem} (hInv : Inv item)
    (hf : statusOf item = Status.finished) :
    ∀ ops : List Op, steps (some item) ops = some item
  | [] => rfl
  | op :: ops => by
    show steps (step item op) ops = some item
    rw [step_finished_frozen hInv hf op]
    exact steps_finished_frozen hInv hf ops

/-- C5 counterexample: `FinalizeGame` checks only that no result is set, not
the status, so finalizing a freshly created record moves its status prefix
from `PENDING` directly to `FINISHED`, skipping `IN_PROGRESS` - refuting
the claim that no operation moves a record from `PENDING` directly to
`FINISHED`. -/
theorem statusSkip_counterexample :
    statusOf pendingItem = Status.pending ∧
    step pendingItem (Op.finalize "Tie" "alice" "2024-01-01 12:00:00.000000") =
      some (changeGameToFinishedState pendingItem "Tie" "alice"
        "2024-01-01 12:00:00.000000").2 ∧
    statusOf (changeGameToFinishedState pendingItem "Tie" "alice"
      "2024-01-01 12:00:00.000000").2 = Status.finished := by decide

/-- C5 amended: over every sequence of engine operations the status rank
never decreases (no transition reverses), created records start `PENDING`,
and once `FINISHED` (which from creation implies a result is set) every
operation leaves the record entirely unchanged - moves, accepts and rejects
fail their store preconditions and finalize is the idempotent no-op.  The
one departure from the claim is that finalize, lacking a status
precondition, can move a `PENDING` record directly to `FINISHED`. -/
theorem statusTransitions_amended :
    (∀ g h o now, statusOf (createNewGame g h o now) = Status.pending ∧
      Inv (createNewGame g h o now)) ∧
    (∀ item op it', Inv item → step item op = some it' →
      rank (statusOf item) ≤ rank (statusOf it') ∧ Inv it' ∧
      (statusOf item = Status.finished → it' = item)) ∧
    (∀ item ops, Inv item → statusOf item = Status.finished →
      steps (some item) ops = some item) := by
  refine ⟨?_, ?_, ?_⟩
  · intro g h o now
    have hs : statusOf (createNewGame g h o now) = Status.pending :=
      statusOf_of_pending rfl
    exact ⟨hs, fun hfin => absurd hfin (by rw [hs]; intro hh; cases hh)⟩
  · intro item op it' hInv hstep
    exact step_props hInv op hstep
  · intro item ops hInv hfin
    exact steps_finished_frozen hInv hfin ops

/-- A finished record used by the C5 witness. -/
def finishedItem : GameItem :=
  (changeGameToFinishedState progressItem "Win" "bob" "2024-01-01 12:00:00.000000").2

/-- Witness for C5: every operation of a concrete sequence leaves the
concrete finished record unchanged. -/
theorem statusTransitions_amended_witness :
    steps (some finishedItem)
      [Op.move Pos.topLeft "bob", Op.accept "2024-01-01 13:00:00.000000",
       Op.reject, Op.finalize "Win" "alice" "2024-01-01 14:00:00.000000"] =
      some finishedItem :=
  statusTransitions_amended.2.2 finishedItem _ (fun _ => by decide) (by decide)

/-- The recency order of an index list: timestamps descending (most recent
first), per spec sections 4.2 and 6. -/
def sortedByDateDesc (l : List GameItem) : Prop :=
  l.Pairwise (fun a b => strLe (dateKey b.StatusDate) (dateKey a.StatusDate) = true)

/-- The invites query issued by `getGameInvites`: opponent index, hash key
the user, `StatusDate` beginning with `PENDING_`, limit ten. -/
def invitesQuery (index : List GameItem) (u : String) : List GameItem :=
  storeQuery index (fun g => g.OpponentId) u "PENDING_" 10

/-- An old in-progress game hosted by alice. -/
def hostedOld : GameItem :=
  { createNewGame "gh" "alice" "carol" "x" with
      StatusDate := "IN_PROGRESS_2020-01-01 00:00:00.000000", Turn := "carol" }

/-- A recent in-progress game in which alice is the invited opponent. -/
def invitedNew : GameItem :=
  { createNewGame "go" "bob" "alice" "x" with
      StatusDate := "IN_PROGRESS_2024-06-01 00:00:00.000000" }

/-- C7: evaluation at the failing input.  Both sub-queries are answered from
an index that is already most-recent-first, yet the merged result lists the
four-years-older hosted game before the recent one: the sort key taken from
`Game.__cmp__` is `statusDate.split("_")[1]`, which for every `IN_PROGRESS`
record is the constant token `"PROGRESS"` rather than the timestamp (the
timestamp sits at index 2, as `Game.getDate` itself reads it), so the output
is not sorted by the timestamp component descending. -/
theorem listByStatus_sort_bug :
    getGamesWithStatus (some "alice")
        (Except.ok (storeQuery [invitedNew, hostedOld] (fun g => g.HostId)
          "alice" "IN_PROGRESS" 10))
        (Except.ok (storeQuery [invitedNew, hostedOld] (fun g => g.OpponentId)
          "alice" "IN_PROGRESS" 10)) =
      Except.ok [hostedOld, invitedNew] ∧
    cmpKey hostedOld.StatusDate = "PROGRESS" ∧
    cmpKey invitedNew.StatusDate = "PROGRESS" ∧
    strLt (dateKey hostedOld.StatusDate) (dateKey invitedNew.StatusDate) = true := by
  refine ⟨rfl, by decide, by decide, by decide⟩

/-- C8: `ListInvites` with an absent user returns the empty sequence; with a
user it returns exactly the first ten index records whose opponent is the
user and whose status begins with `PENDING_`; every returned record matches
the filter; at most ten are returned; the most-recent-first index order is
preserved; and an empty user returns the empty sequence on any store whose
records all name a non-empty opponent. -/
theorem listInvites_correct (index : List GameItem) (u : String)
    (r : Except StoreErr (List GameItem)) :
    (getGameInvites none r = Except.ok (some [])) ∧
    (getGameInvites (some u) (Except.ok (invitesQuery index u)) =
      Except.ok (some ((index.filter
        (fun g => (g.OpponentId == u) && beginsWith "PENDING_" g.StatusDate)).take 10))) ∧
    (∀ g ∈ invitesQuery index u,
      g.OpponentId = u ∧ beginsWith "PENDING_" g.StatusDate = true) ∧
    ((invitesQuery index u).length ≤ 10) ∧
    (sortedByDateDesc index → sortedByDateDesc (invitesQuery index u)) ∧
    ((∀ g ∈ index, g.OpponentId ≠ "") →
      getGameInvites (some "") (Except.ok (invitesQuery index "")) =
        Except.ok (some [])) := by
  refine ⟨rfl, ?_, ?_, ?_, ?_, ?_⟩
  · simp [getGameInvites, invitesQuery, storeQuery, List.take_take]
  · intro g hg
    have hg' := List.mem_of_mem_take hg
    rw [List.mem_filter] at hg'
    have hp := hg'.2
    simp only [Bool.and_eq_true, beq_iff_eq] at hp
    exact hp
  · exact List.length_take_le _ _
  · intro hp
    exact List.Pairwise.sublist
      ((List.take_sublist _ _).trans (List.filter_sublist _)) hp
  · intro hne
    have hemp : index.filter
        (fun g => (g.OpponentId == "") && beginsWith "PENDING_" g.StatusDate) = [] := by
      rw [List.filter_eq_nil_iff]
      intro g hg
      simp only [Bool.and_eq_true, beq_iff_eq, not_and]
      intro hop
      exact absurd hop (hne g hg)
    simp [getGameInvites, invitesQuery, storeQuery, hemp]

/-- Witness for C8: on a store holding only the alice-bob pending game, the
empty user yields the empty sequence. -/
theorem listInvites_correct_witness :
    getGameInvites (some "") (Except.ok (invitesQuery [pendingItem] "")) =
      Except.ok (some []) :=
  (listInvites_correct [pendingItem] "" (Except.ok [])).2.2.2.2.2 (by decide)

/-- C9 counterexample: with the table missing, `getGamesWithStatus`
propagates the store error unchanged instead of reporting the `None`/absent
success outcome the claim asserts for both listing operations (only
`getGameInvites` returns `none`). -/
theorem tableNotFound_counterexample :
    getGamesWithStatus (some "alice") (Except.error StoreErr.resourceNotFound)
        (Except.error StoreErr.resourceNotFound) =
      Except.error StoreErr.resourceNotFound ∧
    getGameInvites (some "alice") (Except.error StoreErr.resourceNotFound) =
      Except.ok none :=
  ⟨rfl, rfl⟩

/-- C9 amended: `ListInvites` reports a missing table as the distinguished
`none` outcome, different from a successful empty sequence; `ListByStatus`
has no such handling and propagates the store error unchanged - still never
confusable with a successful result, but not the `None`/absent outcome the
claim asserts for both operations. -/
theorem tableNotFound_amended (u : String) (r : Except StoreErr (List GameItem))
    (l : List GameItem) :
    getGameInvites (some u) (Except.error StoreErr.resourceNotFound) =
      Except.ok none ∧
    (Except.ok (none : Option (List GameItem)) :
        Except StoreErr (Option (List GameItem))) ≠ Except.ok (some []) ∧
    getGamesWithStatus (some u) (Except.error StoreErr.resourceNotFound) r =
      Except.error StoreErr.resourceNotFound ∧
    getGamesWithStatus (some u) (Except.error StoreErr.resourceNotFound) r ≠
      Except.ok l := by
  refine ⟨rfl, ?_, rfl, ?_⟩
  · intro h
    simp at h
  · intro h
    rw [show getGamesWithStatus (some u) (Except.error StoreErr.resourceNotFound) r =
        Except.error StoreErr.resourceNotFound from rfl] at h
    cases h

/-- Witness for C9 at a concrete user and store response. -/
theorem tableNotFound_amended_witness :
    getGameInvites (some "alice") (Except.error StoreErr.resourceNotFound) =
      Except.ok none :=
  (tableNotFound_amended "alice" (Except.ok []) []).1

end TicTacToe
